import Mathlib

/-!
Verification development for the dual-stack networking / TLS-negotiation core.

Shallow embedding of the C++ sources:
  src/src/security/tls_protocol.h / tls_protocol.cpp
  src/src/core/ip_address.cpp
  src/src/core/socket.cpp, src/src/core/acceptor.cpp

Bytes are modelled as Nat (all byte values stay below 256 in the source and no
arithmetic here overflows a machine word unless noted), byte strings as
List Nat, C++ strings as List Char, fallible functions as Except Int / Except
String / Option mirroring the expected<>-error or throw behaviour of the code.
-/

namespace Dualstack

/-! ## Cipher suites (src/src/security/tls_protocol.h, enum class CipherSuite) -/

/-- The cipher-suite enumeration of tls_protocol.h (all ten enumerators). -/
inductive CipherSuite where
  | TLS_AES_128_GCM_SHA256
  | TLS_AES_256_GCM_SHA384
  | TLS_CHACHA20_POLY1305_SHA256
  | TLS_KYBER768_AES256_GCM_SHA384
  | TLS_DILITHIUM3_AES256_GCM_SHA384
  | TLS_KYBER1024_DILITHIUM5_CHACHA20_POLY1305_SHA512
  | TLS_ECDHE_RSA_WITH_AES_128_GCM_SHA256
  | TLS_ECDHE_RSA_WITH_AES_256_GCM_SHA384
  | TLS_RSA_WITH_AES_128_GCM_SHA256
  | TLS_RSA_WITH_AES_256_GCM_SHA384
deriving DecidableEq

open CipherSuite

/-- The responder-side preference list installed by the TLSSecureSocket
constructor (tls_protocol.cpp, supported_suites_). -/
def supported_suites : List CipherSuite :=
  [TLS_KYBER768_AES256_GCM_SHA384,
   TLS_DILITHIUM3_AES256_GCM_SHA384,
   TLS_AES_256_GCM_SHA384,
   TLS_AES_128_GCM_SHA256]

/-- The condition of the first for-loop of TLSSession::negotiate_cipher_suite
(tls_protocol.cpp lines 385-391): the suite is one of the two recognised
post-quantum suites. -/
def pqc_loop_condition (suite : CipherSuite) : Bool :=
  suite = TLS_KYBER768_AES256_GCM_SHA384 ∨
  suite = TLS_DILITHIUM3_AES256_GCM_SHA384

/-- The condition of the second for-loop of TLSSession::negotiate_cipher_suite
(tls_protocol.cpp lines 394-400): the suite is one of the two recognised
classical suites. -/
def classical_loop_condition (suite : CipherSuite) : Bool :=
  suite = TLS_AES_256_GCM_SHA384 ∨
  suite = TLS_AES_128_GCM_SHA256

/-- TLSSession::negotiate_cipher_suite (tls_protocol.cpp lines 383-403).
The first for-loop returns the first client suite that is one of the two
recognised post-quantum suites; the second for-loop returns the first client
suite that is one of the two recognised classical suites; otherwise nullopt.
(The C++ member also stores the result in cipher_suite_; only the returned
value is modelled.) -/
def negotiate_cipher_suite (client_suites : List CipherSuite) : Option CipherSuite :=
  match client_suites.find? pqc_loop_condition with
  | some suite => some suite
  | none => client_suites.find? classical_loop_condition

/-- TLSSession::is_post_quantum (tls_protocol.cpp lines 450-454), read as a
predicate on the suite value. -/
def is_post_quantum (suite : CipherSuite) : Bool :=
  suite = TLS_KYBER768_AES256_GCM_SHA384 ∨
  suite = TLS_DILITHIUM3_AES256_GCM_SHA384 ∨
  suite = TLS_KYBER1024_DILITHIUM5_CHACHA20_POLY1305_SHA512

/-! ## Hybrid key combination (tls_protocol.cpp, pqc::HybridCrypto) -/

/-- pqc::HybridCrypto::combine_keys: concatenation of the PQC and classical
shared secrets (tls_protocol.cpp lines 157-165). -/
def combine_keys (pqc_key classical_key : List Nat) : List Nat :=
  pqc_key ++ classical_key

/-- pqc::HybridCrypto::split_keys: splits the combined key at half its length
(tls_protocol.cpp lines 167-175, half_size = combined_key.size() / 2). -/
def split_keys (combined_key : List Nat) : List Nat × List Nat :=
  (combined_key.take (combined_key.length / 2),
   combined_key.drop (combined_key.length / 2))

/-! ## Dilithium placeholder signature (tls_protocol.cpp, pqc::DilithiumSignature) -/

/-- pqc::DilithiumSignature::sign (tls_protocol.cpp lines 123-148): builds the
string message ++ private_key, hashes it with std::hash<std::string> (an
implementation-defined external function, passed here as the parameter
hasher), and fills a 4928-byte signature with
signature[i] = (hash_value >> (i % 32)) & 0xFF. -/
def dilithium_sign (hasher : List Nat → Nat) (message private_key : List Nat) : List Nat :=
  let hash_value := hasher (message ++ private_key)
  (List.range 4928).map (fun i => (hash_value >>> (i % 32)) &&& 0xFF)

/-- pqc::DilithiumSignature::verify (tls_protocol.cpp lines 150-154): ignores
message and public key, returns signature.size() == 4928. -/
def dilithium_verify (message signature public_key : List Nat) : Bool :=
  let _ := message
  let _ := public_key
  signature.length = 4928

/-! ## AES-256 placeholder encryption (tls_protocol.cpp, AES256Encryption) -/

/-- The XOR loop of AES256Encryption::encrypt, carrying the running index i:
output[i] = input[i] XOR key[i % key.size()]. Translated with the remaining
input as the recursion argument and i the index of its first element. -/
def xor_with_key (input key : List Nat) (i : Nat) : List Nat :=
  match input with
  | [] => []
  | b :: rest => (b ^^^ key.getD (i % key.length) 0) :: xor_with_key rest key (i + 1)

/-- AES256Encryption::encrypt (tls_protocol.cpp lines 304-329): throws on a
key shorter than 32 bytes or an IV shorter than 16 bytes (modelled as
Except.error with the exception message), otherwise XORs the plaintext with
the key cyclically; the IV is unused by the XOR loop. -/
def aes256_encrypt (plaintext key iv : List Nat) : Except String (List Nat) :=
  if key.length < 32 then
    Except.error "Key must be at least 32 bytes for AES-256"
  else if iv.length < 16 then
    Except.error "IV must be at least 16 bytes"
  else
    Except.ok (xor_with_key plaintext key 0)

/-- AES256Encryption::decrypt (tls_protocol.cpp lines 331-335): calls encrypt
("XOR decryption is the same as encryption"). -/
def aes256_decrypt (ciphertext key iv : List Nat) : Except String (List Nat) :=
  aes256_encrypt ciphertext key iv

/-! ## IPv4 addresses (src/src/core/ip_address.cpp) -/

/-- An IPv4 address: one 32-bit value (ip_address.h). -/
structure ipv4_address where
  address : Nat
deriving DecidableEq

/-- str.find(c, pos) with npos replaced by str.length(), which is what every
caller in ip_address.cpp does with the npos result. List.findIdx returns the
length of the searched suffix when nothing matches, so for pos ≤ str.length
this is the index of the first occurrence of c at or after pos, or str.length
when there is none. -/
def find_char_or_end (s : List Char) (c : Char) (pos : Nat) : Nat :=
  pos + (s.drop pos).findIdx (fun d => d = c)

/-- The numeric value of a run of decimal digit characters. -/
def dec_value (digits : List Char) : Nat :=
  digits.foldl (fun acc c => acc * 10 + (c.toNat - 48)) 0

/-- std::from_chars at base 10 on a short digit string: it consumes the
maximal leading digit run and reports an error (none) exactly when that run
is empty. Callers have already excluded signs and strings longer than 3
characters, so int overflow cannot occur. -/
def from_chars_dec (s : List Char) : Option Nat :=
  let digits := s.takeWhile Char.isDigit
  if digits.isEmpty then none else some (dec_value digits)

/-- The while-loop of ipv4_address::from_string (ip_address.cpp lines 48-73).
pos, shift and addr are the loop variables (shift is the signed int of the
source). fuel bounds the iteration count: each iteration strictly increases
pos, so there are at most str.length entries; from_string passes
str.length + 1 and the Except.error (-6) fuel-exhaustion value is
unreachable. Leaving the loop falls through to the final shift != -8 check
(lines 75-79). -/
def ipv4_loop (s : List Char) : Nat → Nat → Int → Nat → Except Int ipv4_address
  | 0, _, _, _ => Except.error (-6)
  | fuel + 1, pos, shift, addr =>
    if pos < s.length ∧ 0 ≤ shift then
      let dot_pos := find_char_or_end s '.' pos
      let octet_str := (s.drop pos).take (dot_pos - pos)
      if octet_str.isEmpty ∨ octet_str.length > 3 then
        Except.error (-2)
      else
        match from_chars_dec octet_str with
        | none => Except.error (-3)
        | some value =>
          if value > 255 then
            Except.error (-3)
          else
            let addr' := addr ||| (value <<< shift.toNat)
            let shift' := shift - 8
            let pos' := dot_pos + 1
            if pos' > s.length ∧ 0 ≤ shift' then
              Except.error (-4)
            else
              ipv4_loop s fuel pos' shift' addr'
    else
      if shift ≠ -8 then Except.error (-5) else Except.ok ⟨addr⟩

/-- ipv4_address::from_string (ip_address.cpp lines 38-80): the
find_first_not_of("0123456789.") scan first (error -1 on any other
character), then the octet loop from pos = 0, shift = 24, addr = 0. -/
def ipv4_from_string (s : List Char) : Except Int ipv4_address :=
  if s.all (fun c => c.isDigit ∨ c = '.') then
    ipv4_loop s (s.length + 1) 0 24 0
  else
    Except.error (-1)

/-- ipv4_address::to_string (ip_address.cpp lines 29-36): the four decimal
octets (address >> 24) & 0xFF down to address & 0xFF joined by dots. -/
def ipv4_to_string (a : ipv4_address) : List Char :=
  Nat.toDigits 10 ((a.address >>> 24) &&& 0xFF) ++ ['.'] ++
  Nat.toDigits 10 ((a.address >>> 16) &&& 0xFF) ++ ['.'] ++
  Nat.toDigits 10 ((a.address >>> 8) &&& 0xFF) ++ ['.'] ++
  Nat.toDigits 10 (a.address &&& 0xFF)

/-! ## IPv6 addresses (src/src/core/ip_address.cpp) -/

/-- An IPv6 address: two 64-bit halves (ip_address.h). -/
structure ipv6_address where
  high : Nat
  low : Nat
deriving DecidableEq

/-- The words array built by ipv6_address::to_string (ip_address.cpp lines
89-96): words[i] = (high >> (48 - i*16)) & 0xFFFF for i < 4 and the analogous
extraction from low for i >= 4. -/
def ipv6_words (a : ipv6_address) : List Nat :=
  (List.range 8).map (fun i =>
    if i < 4 then (a.high >>> (48 - i * 16)) &&& 0xFFFF
    else (a.low >>> (48 - (i - 4) * 16)) &&& 0xFFFF)

/-- The compression-range scan of ipv6_address::to_string (lines 98-122): it
walks i = 0..7 over words[i] (here the successive list elements, with i the
running index), tracking the current zero run (current_start, current_len)
and the best run (compress_start, compress_len); a run replaces the best one
only when strictly longer and of length greater than 1, and the final run is
considered the same way after the walk. -/
def ipv6_scan_zeros (ws : List Nat) (i cs cl curs curl : Nat) : Nat × Nat :=
  match ws with
  | [] => if curl > cl ∧ curl > 1 then (curs, curl) else (cs, cl)
  | w :: rest =>
    if w = 0 then
      ipv6_scan_zeros rest (i + 1) cs cl (if curl = 0 then i else curs) (curl + 1)
    else
      if curl > cl ∧ curl > 1 then
        ipv6_scan_zeros rest (i + 1) curs curl curs 0
      else
        ipv6_scan_zeros rest (i + 1) cs cl curs 0

/-- The rendering for-loop of ipv6_address::to_string (lines 124-141): at
i = compress_start (with compress_len > 0) it writes "::" when i = 0 and a
single ":" otherwise, then jumps i by compress_len (i += compress_len - 1
plus the ++i) with compressed = true; otherwise it writes a separating ":"
(only when i > 0 and the previous step was not the compression), the word in
lowercase hex, and clears compressed. fuel bounds the remaining iterations
(i strictly increases, so 8 suffice). -/
def ipv6_render : Nat → List Nat → Nat → Nat → Nat → Bool → List Char → List Char
  | 0, _, _, _, _, _, acc => acc
  | fuel + 1, words, cs, cl, i, compressed, acc =>
    if i < 8 then
      if i = cs ∧ cl > 0 then
        let acc' := acc ++ (if i = 0 then [':', ':'] else [':'])
        ipv6_render fuel words cs cl (i + cl) true acc'
      else
        let acc' := acc ++ (if 0 < i ∧ ¬compressed then [':'] else []) ++
          Nat.toDigits 16 (words.getD i 0)
        ipv6_render fuel words cs cl (i + 1) false acc'
    else acc

/-- ipv6_address::to_string (ip_address.cpp lines 85-148): compute the eight
16-bit words, find the compression range, render, and return the bare "::"
when the whole address is zero (compress_len == 8). -/
def ipv6_to_string (a : ipv6_address) : List Char :=
  let words := ipv6_words a
  let scan := ipv6_scan_zeros words 0 0 0 0 0
  let rendered := ipv6_render 8 words scan.1 scan.2 0 false []
  if scan.2 = 8 then [':', ':'] else rendered

/-- Hexadecimal digit characters (0-9, a-f, A-F), as accepted by
std::from_chars at base 16. -/
def is_hex_digit (c : Char) : Bool :=
  c.isDigit ∨ ('a' ≤ c ∧ c ≤ 'f') ∨ ('A' ≤ c ∧ c ≤ 'F')

/-- The numeric value of one hexadecimal digit character. -/
def hex_digit_value (c : Char) : Nat :=
  if c.isDigit then c.toNat - 48
  else if 'a' ≤ c then c.toNat - 87
  else c.toNat - 55

/-- The numeric value of a run of hexadecimal digit characters. -/
def hex_value (digits : List Char) : Nat :=
  digits.foldl (fun acc c => acc * 16 + hex_digit_value c) 0

/-- std::from_chars at base 16 with a uint16_t target: it consumes the
maximal leading hex-digit run and reports an error (none) when that run is
empty (invalid_argument) or its value does not fit in 16 bits
(result_out_of_range). -/
def from_chars_hex16 (s : List Char) : Option Nat :=
  let digits := s.takeWhile is_hex_digit
  if digits.isEmpty then none
  else if hex_value digits > 0xFFFF then none
  else some (hex_value digits)

/-- The str.find of two adjacent colons performed at the start of
ipv6_address::from_string (line 165): the position of the first occurrence,
or none for npos. -/
def find_colon_colon : List Char → Option Nat
  | c1 :: c2 :: rest =>
    if c1 = ':' ∧ c2 = ':' then some 0
    else (find_colon_colon (c2 :: rest)).map (· + 1)
  | _ => none

/-- The while-loop of ipv6_address::from_string (ip_address.cpp lines
172-216). words is the 8-entry array, parse_pos and word_index the loop
variables; compress_pos is str.find("::") (none models npos, so the
parse_pos == compress_pos test is a comparison with some parse_pos). The
word_index = 8 - remaining_words assignment is size_t arithmetic: when
remaining_words exceeds 8 it wraps to a huge value (the exact mod-2^64
expression below), which merely makes the word_index < 8 loop guard fail.
The two break statements return the words accumulated so far; so does a
normal loop exit. fuel bounds the iteration count (parse_pos strictly
increases each iteration, so str.length entries suffice; from_string passes
str.length + 1 and the error (-9) fuel value is unreachable). -/
def ipv6_parse_loop (s : List Char) (compress_pos : Option Nat) :
    Nat → Nat → Nat → List Nat → Except Int (List Nat)
  | 0, _, _, _ => Except.error (-9)
  | fuel + 1, parse_pos, word_index, words =>
    if parse_pos < s.length ∧ word_index < 8 then
      if compress_pos = some parse_pos then
        let parse_pos' := parse_pos + 2
        if parse_pos' ≥ s.length then Except.ok words
        else
          let remaining_words :=
            (s.drop parse_pos').countP (fun c => c = ':') +
            (if s.getLastD ' ' ≠ ':' then 1 else 0)
          let word_index' := (((8 : Int) - remaining_words) % (2 ^ 64)).toNat
          ipv6_parse_loop s compress_pos fuel parse_pos' word_index' words
      else
        let colon_pos := find_char_or_end s ':' parse_pos
        let word_str := (s.drop parse_pos).take (colon_pos - parse_pos)
        if word_str.isEmpty then Except.error (-2)
        else
          match from_chars_hex16 word_str with
          | none => Except.error (-3)
          | some word =>
            let words' := words.set word_index word
            let parse_pos' := colon_pos + 1
            if parse_pos' > s.length then Except.ok words'
            else ipv6_parse_loop s compress_pos fuel parse_pos' (word_index + 1) words'
    else Except.ok words

/-- The words-to-high/low conversion ending ipv6_address::from_string
(lines 218-229): high collects words[0..3], low collects words[4..7], each
shifted by 48 - 16*i. -/
def ipv6_words_to_address (words : List Nat) : ipv6_address :=
  ⟨(words.getD 0 0) <<< 48 ||| (words.getD 1 0) <<< 32 |||
     (words.getD 2 0) <<< 16 ||| words.getD 3 0,
   (words.getD 4 0) <<< 48 ||| (words.getD 5 0) <<< 32 |||
     (words.getD 6 0) <<< 16 ||| words.getD 7 0⟩

/-- ipv6_address::from_string (ip_address.cpp lines 150-230): empty input is
error -1, the exact string "::" is the all-zero address, and otherwise the
parse loop runs from parse_pos = 0, word_index = 0 over an all-zero words
array, followed by the high/low conversion. -/
def ipv6_from_string (s : List Char) : Except Int ipv6_address :=
  if s.isEmpty then Except.error (-1)
  else if s = [':', ':'] then Except.ok ⟨0, 0⟩
  else
    (ipv6_parse_loop s (find_colon_colon s) (s.length + 1) 0 0
      (List.replicate 8 0)).map ipv6_words_to_address

/-! ## Group view of the IPv4 input, and the spec-side parser. -/

/-- The octet-delimiter test of the loop: the character is not a dot (the
stable name keeps the predicate opaque to simplification). -/
def not_dot (c : Char) : Bool := c ≠ '.'

/-- The dot-separated groups of a string: the run before the first dot,
followed by the groups of what comes after it; a dotless string is a single
group (so the group list is never empty, and an empty string gives one empty
group). -/
def dot_groups (s : List Char) : List (List Char) :=
  if h : s.dropWhile not_dot = [] then
    [s.takeWhile not_dot]
  else
    s.takeWhile not_dot :: dot_groups ((s.dropWhile not_dot).drop 1)
termination_by s.length
decreasing_by
  have h1 : (s.dropWhile not_dot).length ≤ s.length :=
    List.Sublist.length_le (List.dropWhile_sublist _)
  have h2 : s.length ≠ 0 := by
    intro hz
    rw [List.eq_nil_of_length_eq_zero hz] at h
    exact h rfl
  simp only [List.length_drop]
  omega

/-- A valid decimal octet group of the specification: one to three decimal
digits whose value is at most 255. -/
def valid_octet (g : List Char) : Bool :=
  1 ≤ g.length ∧ g.length ≤ 3 ∧ g.all Char.isDigit ∧ dec_value g ≤ 255

/-- The octet loop restated on a group list: consume n more groups, requiring
each to be a valid octet and accumulating its value at the matching shift;
succeed with the accumulator once n groups were consumed, ignoring any
remaining groups. -/
def spec_run : List (List Char) → Nat → Nat → Option Nat
  | _, 0, addr => some addr
  | [], _ + 1, _ => none
  | g :: gs, n + 1, addr =>
    if valid_octet g then spec_run gs n (addr ||| (dec_value g <<< (8 * n)))
    else none

/-- Specification-side IPv4 parser (parse_v4 of spec section 4.1), amended by
the truncation exception the counterexample forces: over the alphabet of
decimal digits and dots, an input whose first four dot-separated groups are
valid octets is accepted with the big-endian 32-bit value of those four
groups --- even when further groups follow; every other input is rejected. -/
def parse_v4_spec (s : List Char) : Option Nat :=
  if s.all (fun c => c.isDigit ∨ c = '.') then
    match dot_groups s with
    | g1 :: g2 :: g3 :: g4 :: _ =>
      if valid_octet g1 ∧ valid_octet g2 ∧ valid_octet g3 ∧ valid_octet g4 then
        some (dec_value g1 <<< 24 ||| dec_value g2 <<< 16 |||
              dec_value g3 <<< 8 ||| dec_value g4)
      else none
    | _ => none
  else none

/-- The ok value of an Except result, none for an error. -/
def ok_value {ε α : Type} : Except ε α → Option α
  | Except.ok a => some a
  | Except.error _ => none

instance {ε α : Type} [DecidableEq ε] [DecidableEq α] :
    DecidableEq (Except ε α) := fun x y =>
  match x, y with
  | Except.ok a, Except.ok b =>
    if h : a = b then isTrue (by rw [h])
    else isFalse (by intro hc; cases hc; exact h rfl)
  | Except.ok _, Except.error _ => isFalse (by intro hc; cases hc)
  | Except.error _, Except.ok _ => isFalse (by intro hc; cases hc)
  | Except.error e, Except.error f =>
    if h : e = f then isTrue (by rw [h])
    else isFalse (by intro hc; cases hc; exact h rfl)

/-! ## Sockets and the Acceptor (src/src/core/socket.h/.cpp, acceptor.cpp) -/

/-- The error_code enumeration of socket.h (lines 68-78). -/
inductive error_code where
  | success
  | connection_failed
  | bind_failed
  | listen_failed
  | accept_failed
  | send_failed
  | receive_failed
  | invalid_address
  | timeout
deriving DecidableEq

/-- A Socket as the listen path observes it: the native handle and the
is_open_ flag (socket.h lines 80-115). -/
structure Socket where
  handle : Nat
  is_open : Bool
deriving DecidableEq

/-- The operating-system calls the listen path can issue, recorded as a
trace: setsockopt(SO_REUSEADDR), setsockopt(IPV6_V6ONLY, value), bind and
listen. -/
inductive OSCall where
  | set_reuse_addr
  | set_ipv6_only (value : Nat)
  | bind_call
  | listen_call
deriving DecidableEq

/-- The outcome the operating system would give to each call the listen path
can issue, so the embedding can quantify over every OS behaviour. -/
structure OSBehaviour where
  setsockopt_ok : Bool
  bind_ok : Bool
  listen_ok : Bool

/-- create_tcp_socket (socket.cpp lines 230-234): returns a default-state
Socket -- handle 0, is_open_ false ("Socket is created on first connect") --
and issues no OS call. -/
def create_tcp_socket : Except error_code Socket := Except.ok ⟨0, false⟩

/-- Socket::set_reuse_address (socket.cpp lines 190-202): a socket that is
not open returns invalid_address before any OS call; otherwise it issues
setsockopt(SOL_SOCKET, SO_REUSEADDR), failing with invalid_address when the
OS rejects it. (The reuse flag only selects the option value.) -/
def set_reuse_address (os : OSBehaviour) (sock : Socket) (reuse : Bool) :
    error_code × List OSCall :=
  let _ := reuse
  if ¬sock.is_open then (error_code.invalid_address, [])
  else if os.setsockopt_ok then (error_code.success, [OSCall.set_reuse_addr])
  else (error_code.invalid_address, [OSCall.set_reuse_addr])

/-- Acceptor::enable_dual_stack (acceptor.cpp lines 179-192): a socket that
is not open returns invalid_address before any OS call; otherwise it issues
setsockopt(IPPROTO_IPV6, IPV6_V6ONLY, enable ? 0 : 1), failing with
invalid_address when the OS rejects it. -/
def enable_dual_stack (os : OSBehaviour) (sock : Socket) (enable : Bool) :
    error_code × List OSCall :=
  if ¬sock.is_open then (error_code.invalid_address, [])
  else if os.setsockopt_ok then
    (error_code.success, [OSCall.set_ipv6_only (if enable then 0 else 1)])
  else (error_code.invalid_address, [OSCall.set_ipv6_only (if enable then 0 else 1)])

/-- Acceptor::listen (acceptor.cpp lines 71-121): create the listening
socket, enable SO_REUSEADDR, enable dual-stack, convert the bind address,
bind, then listen, returning early with the failing step's error code
(bind_failed / listen_failed for the two OS steps). The result pairs the
returned error_code with the trace of OS calls actually issued. -/
def acceptor_listen (os : OSBehaviour) (port : Nat)
    (bind_addr : ipv4_address ⊕ ipv6_address) : error_code × List OSCall :=
  let _ := port
  let _ := bind_addr
  match create_tcp_socket with
  | Except.error e => (e, [])
  | Except.ok listen_socket =>
    let reuse := set_reuse_address os listen_socket true
    if reuse.1 ≠ error_code.success then (reuse.1, reuse.2)
    else
      let dual := enable_dual_stack os listen_socket true
      if dual.1 ≠ error_code.success then (dual.1, reuse.2 ++ dual.2)
      else if ¬os.bind_ok then
        (error_code.bind_failed, reuse.2 ++ dual.2 ++ [OSCall.bind_call])
      else if ¬os.listen_ok then
        (error_code.listen_failed,
         reuse.2 ++ dual.2 ++ [OSCall.bind_call, OSCall.listen_call])
      else
        (error_code.success,
         reuse.2 ++ dual.2 ++ [OSCall.bind_call, OSCall.listen_call])

/-! ## JWT token validation (tls_protocol.cpp, JWTToken) -/

/-- The three stored parts of a JWTToken (tls_protocol.h lines 72-90). -/
structure JWTToken where
  header : String
  payload : String
  signature : String
deriving DecidableEq

/-- JWTToken::validate (tls_protocol.cpp lines 218-231): rebuilds
header.payload.signature, decodes it with jwt-cpp decode (which only parses
the token and reads registered claims from the payload part -- it performs no
signature verification), and returns get_expires_at() > now; any decode
exception yields false. The external decoder is the parameter get_expires_at,
mapping the payload part to its expiry claim (none models a decode throw).
The public_key argument of the C++ function is never consulted. -/
def jwt_validate (get_expires_at : String → Option Int)
    (token : JWTToken) (public_key : List Nat) (now : Int) : Bool :=
  let _ := public_key
  match get_expires_at token.payload with
  | some expiry => now < expiry
  | none => false

/-! # Theorems -/

/-! ## C1: address round-trip law -/

/-- C1: the round-trip law parse(format(a)) = a fails on the code. For the
IPv6 address 2001:db8::1 (words 2001, db8, 0, 0, 0, 0, 0, 1), to_string
renders "2001:db8:1" --- the compression of an inner zero run degenerates to
a single colon --- and from_string on that output succeeds but returns the
different address with words 2001, db8, 1, 0, 0, 0, 0, 0. Moreover
from_string rejects the canonical spelling "2001:db8::1" with error -2
(its word scan never recognises a "::" that is not at position 0), in
contradiction with the repository's own round-trip test for this very
address. -/
theorem ipv6_roundtrip_fails_on_2001_db8_1 :
    ipv6_to_string ⟨0x20010db800000000, 0x1⟩ = "2001:db8:1".toList ∧
    ipv6_from_string (ipv6_to_string ⟨0x20010db800000000, 0x1⟩) =
      Except.ok ⟨0x20010db800010000, 0⟩ ∧
    (⟨0x20010db800010000, 0⟩ : ipv6_address) ≠ ⟨0x20010db800000000, 0x1⟩ ∧
    ipv6_from_string "2001:db8::1".toList = Except.error (-2) := by
  decide

/-! ## C7: IPv6 canonical formatting -/

/-- C7: canonical "::" compression fails for a zero run that does not start
at group 0. For the address with words 1, 0, 0, 2, 3, 4, 5, 6 the scan does
find the longest zero run (start 1, length 2), but the rendering emits a
single ":" in its place, so the output "1:2:3:4:5:6" contains no "::" at
all (and is indistinguishable from a six-group prefix). -/
theorem ipv6_to_string_drops_compression_for_inner_run :
    ipv6_scan_zeros (ipv6_words ⟨0x0001000000000002, 0x0003000400050006⟩) 0 0 0 0 0 =
      (1, 2) ∧
    ipv6_to_string ⟨0x0001000000000002, 0x0003000400050006⟩ = "1:2:3:4:5:6".toList ∧
    find_colon_colon (ipv6_to_string ⟨0x0001000000000002, 0x0003000400050006⟩) = none := by
  decide

/-! ## C2: responder preference among common suites -/

/-- C2 counterexample: with the client list [CLASSICAL_B, CLASSICAL_A] =
[TLS_AES_128_GCM_SHA256, TLS_AES_256_GCM_SHA384], negotiate_cipher_suite
returns the client's first supported classical suite CLASSICAL_B, not the
server-preferred CLASSICAL_A claimed by the specification. -/
theorem negotiate_ignores_server_preference_counterexample :
    negotiate_cipher_suite
      [CipherSuite.TLS_AES_128_GCM_SHA256, CipherSuite.TLS_AES_256_GCM_SHA384] =
      some CipherSuite.TLS_AES_128_GCM_SHA256 ∧
    some CipherSuite.TLS_AES_128_GCM_SHA256 ≠
      some CipherSuite.TLS_AES_256_GCM_SHA384 := by
  decide

/-- C2 amended: within each class the negotiation follows the CLIENT's
order, not the responder's: for the claim's scenario (client offers
[CLASSICAL_B, CLASSICAL_A]) it selects CLASSICAL_B; and every suite it ever
selects is both offered by the client and in the responder's supported set,
so a PQC suite the client did not offer is never selected. -/
theorem negotiate_cipher_suite_client_order :
    (negotiate_cipher_suite
      [CipherSuite.TLS_AES_128_GCM_SHA256, CipherSuite.TLS_AES_256_GCM_SHA384] =
      some CipherSuite.TLS_AES_128_GCM_SHA256) ∧
    ∀ client_suites suite,
      negotiate_cipher_suite client_suites = some suite →
      suite ∈ client_suites ∧ suite ∈ supported_suites := by
  refine ⟨by decide, ?_⟩
  intro client_suites suite hneg
  unfold negotiate_cipher_suite at hneg
  rcases hfind : client_suites.find? pqc_loop_condition with _ | t
  · rw [hfind] at hneg
    refine ⟨List.mem_of_find?_eq_some hneg, ?_⟩
    have hp := List.find?_some hneg
    rcases of_decide_eq_true hp with h | h <;> subst h <;> decide
  · rw [hfind] at hneg
    cases hneg
    refine ⟨List.mem_of_find?_eq_some hfind, ?_⟩
    have hp := List.find?_some hfind
    rcases of_decide_eq_true hp with h | h <;> subst h <;> decide

/-- Witness for negotiate_cipher_suite_client_order at the concrete client
list [TLS_AES_128_GCM_SHA256]. -/
theorem negotiate_cipher_suite_client_order_witness :
    CipherSuite.TLS_AES_128_GCM_SHA256 ∈ [CipherSuite.TLS_AES_128_GCM_SHA256] ∧
    CipherSuite.TLS_AES_128_GCM_SHA256 ∈ supported_suites :=
  negotiate_cipher_suite_client_order.2 [CipherSuite.TLS_AES_128_GCM_SHA256]
    CipherSuite.TLS_AES_128_GCM_SHA256 (by decide)

/-! ## C3: post-quantum preference and the no-common-suite abort -/

/-- C3: for every client list, (1) whenever some suite that both sides
support (offered by the client and in the responder's supported set) is
post-quantum, the negotiation returns a post-quantum suite --- never a purely
classical one, regardless of the client's ordering; and (2) when no client
suite is in the responder's supported set, negotiation returns none (the
NoCommonCipherSuite abort). TLS_KYBER1024_DILITHIUM5_CHACHA20_POLY1305_SHA512
is not in the responder's supported set, so it is never supported by both
sides and part (1) covers it vacuously, while part (2) makes a client list
offering only that suite negotiate to none. -/
theorem negotiate_cipher_suite_prefers_pqc (client_suites : List CipherSuite) :
    ((∃ s ∈ client_suites, s ∈ supported_suites ∧ is_post_quantum s = true) →
      ∃ t, negotiate_cipher_suite client_suites = some t ∧ is_post_quantum t = true) ∧
    ((∀ s ∈ client_suites, s ∉ supported_suites) →
      negotiate_cipher_suite client_suites = none) := by
  constructor
  · rintro ⟨s, hmem, hsup, hpq⟩
    have hp : pqc_loop_condition s = true := by
      fin_cases hsup <;> first | rfl | exact absurd hpq (by decide)
    rcases hfind : client_suites.find? pqc_loop_condition with _ | t
    · exact absurd hp (by simpa using List.find?_eq_none.mp hfind s hmem)
    · refine ⟨t, by simp [negotiate_cipher_suite, hfind], ?_⟩
      have hpt := List.find?_some hfind
      rcases of_decide_eq_true hpt with h | h <;> subst h <;> decide
  · intro hnone
    have h1 : client_suites.find? pqc_loop_condition = none := by
      refine List.find?_eq_none.mpr ?_
      intro x hx hpx
      refine hnone x hx ?_
      rcases of_decide_eq_true hpx with h | h <;> subst h <;> decide
    have h2 : client_suites.find? classical_loop_condition = none := by
      refine List.find?_eq_none.mpr ?_
      intro x hx hpx
      refine hnone x hx ?_
      rcases of_decide_eq_true hpx with h | h <;> subst h <;> decide
    simp [negotiate_cipher_suite, h1, h2]

/-- Witness for negotiate_cipher_suite_prefers_pqc at the client list
[TLS_AES_256_GCM_SHA384, TLS_KYBER768_AES256_GCM_SHA384]: the mutually
supported PQC suite makes negotiation return a post-quantum suite even
though the client listed the classical suite first. -/
theorem negotiate_cipher_suite_prefers_pqc_witness :
    (∃ s ∈ [CipherSuite.TLS_AES_256_GCM_SHA384,
            CipherSuite.TLS_KYBER768_AES256_GCM_SHA384],
        s ∈ supported_suites ∧ is_post_quantum s = true) ∧
    ∃ t, negotiate_cipher_suite
        [CipherSuite.TLS_AES_256_GCM_SHA384,
         CipherSuite.TLS_KYBER768_AES256_GCM_SHA384] = some t ∧
      is_post_quantum t = true :=
  ⟨by decide,
   (negotiate_cipher_suite_prefers_pqc
      [CipherSuite.TLS_AES_256_GCM_SHA384,
       CipherSuite.TLS_KYBER768_AES256_GCM_SHA384]).1 (by decide)⟩

/-! ## C5: bearer-token validation -/

/-- C5: JWTToken::validate never looks at the signature or at the
verification key: for every decoder behaviour, header, payload, two
signatures and two keys it returns the same value, and that value is exactly
the expiry comparison now < expiry of the decoded payload. In particular the
concrete token whose payload decodes to expiry 100 validates as true at
now = 0 with a forged signature under an arbitrary key, where the claim
requires false for a payload-or-signature mismatch. -/
theorem jwt_validate_ignores_signature_and_key (E : String → Option Int)
    (hdr payload sig sig' : String) (key key' : List Nat) (now : Int) :
    jwt_validate E ⟨hdr, payload, sig⟩ key now =
      jwt_validate E ⟨hdr, payload, sig'⟩ key' now ∧
    (jwt_validate E ⟨hdr, payload, sig⟩ key now = true ↔
      ∃ e, E payload = some e ∧ now < e) ∧
    jwt_validate (fun _ => some 100) ⟨"h", "tampered-payload", "forged-signature"⟩
      [0] 0 = true := by
  refine ⟨rfl, ?_, rfl⟩
  unfold jwt_validate
  rcases E payload with _ | e <;> simp

/-! ## C6: signature correctness invariant -/

/-- C6: pqc::DilithiumSignature::verify accepts the signature of ANY message
under ANY public key: sign always produces a 4928-byte signature and verify
only checks that length, so verify(m2, sign(m1, sk), pk2) = true for every
hash behaviour, both messages and all keys --- in particular for an altered
message m2 and a mismatched key pk2, where the claim requires false. (With
m2 = m1 and pk2 = pk this includes the accepting half of the invariant,
verify(m, sign(m, sk), pk) = true.) -/
theorem dilithium_verify_accepts_any_message
    (hasher : List Nat → Nat) (m1 m2 sk pk2 : List Nat) :
    dilithium_verify m2 (dilithium_sign hasher m1 sk) pk2 = true := by
  simp [dilithium_verify, dilithium_sign]

/-! ## C8: Acceptor::listen and dual-stack -/

/-- C8: Acceptor::listen cannot succeed and never reaches the dual-stack,
bind or listen steps: the socket returned by create_tcp_socket has
is_open_ = false ("Socket is created on first connect"), so the first step,
set_reuse_address, fails its is_open_ guard, and listen returns
invalid_address with an empty OS-call trace for every OS behaviour, port and
bind address --- IPV6_V6ONLY is never cleared, nothing is bound, and success
is never returned even when the OS would accept every call. This contradicts
the claim (and the repository's own test_dual_stack_binding test, which
requires listen(0) to return success). -/
theorem acceptor_listen_always_invalid_address (os : OSBehaviour) (port : Nat)
    (bind_addr : ipv4_address ⊕ ipv6_address) :
    acceptor_listen os port bind_addr = (error_code.invalid_address, []) := by
  rfl

/-! ## C9: hybrid key combination -/

/-- C9 counterexample: split_keys(combine_keys([1], [])) = ([], [1]), not
([1], []), so split does not invert combine for all byte sequences --- the
midpoint split need not coincide with the concatenation boundary when the
two inputs have different lengths. -/
theorem split_keys_combine_keys_counterexample :
    split_keys (combine_keys [1] []) = ([], [1]) ∧
    (([], [1]) : List Nat × List Nat) ≠ ([1], []) := by
  decide

/-- C9 amended: for byte sequences of EQUAL length (as the 32-byte shared
secrets combined during the handshake are), split_keys inverts combine_keys:
split(combine(a, b)) = (a, b). The unrestricted for-all-sequences law of the
claim is refuted by the counterexample; this restriction to equal lengths is
what the handshake uses and what the midpoint split guarantees. -/
theorem split_keys_combine_keys_equal_length (a b : List Nat)
    (hlen : a.length = b.length) :
    split_keys (combine_keys a b) = (a, b) := by
  unfold split_keys combine_keys
  have hl : (a ++ b).length / 2 = a.length := by
    rw [List.length_append, ← hlen]
    omega
  rw [hl, List.take_left, List.drop_left]

/-- Witness for split_keys_combine_keys_equal_length at the equal-length
pair [1, 2] and [3, 4]. -/
theorem split_keys_combine_keys_equal_length_witness :
    ([1, 2] : List Nat).length = ([3, 4] : List Nat).length ∧
    split_keys (combine_keys [1, 2] [3, 4]) = ([1, 2], [3, 4]) :=
  ⟨by decide, split_keys_combine_keys_equal_length [1, 2] [3, 4] (by decide)⟩

/-! ## C10: AES-256 placeholder XOR round trip -/

/-- The XOR loop is an involution at every starting index. -/
theorem xor_with_key_involution (p k : List Nat) (i : Nat) :
    xor_with_key (xor_with_key p k i) k i = p := by
  induction p generalizing i with
  | nil => rfl
  | cons b rest ih =>
    simp [xor_with_key, ih, Nat.xor_cancel_right]

/-- The XOR loop preserves length. -/
theorem xor_with_key_length (p k : List Nat) (i : Nat) :
    (xor_with_key p k i).length = p.length := by
  induction p generalizing i with
  | nil => rfl
  | cons b rest ih => simp [xor_with_key, ih]

/-- C10: whenever the key has at least 32 bytes and the IV at least 16,
encrypt succeeds, the ciphertext has the plaintext's length, and decrypt of
the ciphertext under the same key and IV gives back the plaintext (the XOR
scheme is an involution); with a shorter key, or a shorter IV, both encrypt
and decrypt throw (the modelled Except.error carries the C++ exception
message) instead of producing output. -/
theorem aes256_encrypt_decrypt_roundtrip (p k iv : List Nat) :
    (32 ≤ k.length → 16 ≤ iv.length →
      aes256_encrypt p k iv = Except.ok (xor_with_key p k 0) ∧
      (xor_with_key p k 0).length = p.length ∧
      aes256_decrypt (xor_with_key p k 0) k iv = Except.ok p) ∧
    (k.length < 32 →
      aes256_encrypt p k iv =
        Except.error "Key must be at least 32 bytes for AES-256" ∧
      aes256_decrypt p k iv =
        Except.error "Key must be at least 32 bytes for AES-256") ∧
    (32 ≤ k.length → iv.length < 16 →
      aes256_encrypt p k iv = Except.error "IV must be at least 16 bytes" ∧
      aes256_decrypt p k iv = Except.error "IV must be at least 16 bytes") := by
  refine ⟨?_, ?_, ?_⟩
  · intro hk hiv
    have hk' : ¬k.length < 32 := by omega
    have hiv' : ¬iv.length < 16 := by omega
    refine ⟨?_, xor_with_key_length p k 0, ?_⟩
    · simp [aes256_encrypt, hk', hiv']
    · simp [aes256_decrypt, aes256_encrypt, hk', hiv', xor_with_key_involution]
  · intro hk
    constructor <;> simp [aes256_decrypt, aes256_encrypt, hk]
  · intro hk hiv
    have hk' : ¬k.length < 32 := by omega
    constructor <;> simp [aes256_decrypt, aes256_encrypt, hk', hiv]

/-- Witness for aes256_encrypt_decrypt_roundtrip: a 32-byte key and 16-byte
IV decrypt the encryption of [1, 2, 3] back to [1, 2, 3]. -/
theorem aes256_encrypt_decrypt_roundtrip_witness :
    32 ≤ (List.replicate 32 7 : List Nat).length ∧
    16 ≤ (List.replicate 16 9 : List Nat).length ∧
    aes256_decrypt (xor_with_key [1, 2, 3] (List.replicate 32 7) 0)
      (List.replicate 32 7) (List.replicate 16 9) = Except.ok [1, 2, 3] :=
  ⟨by decide, by decide,
   ((aes256_encrypt_decrypt_roundtrip [1, 2, 3] (List.replicate 32 7)
      (List.replicate 16 9)).1 (by decide) (by decide)).2.2⟩

/-! ## C4: IPv4 parser acceptance

Helper lemmas connecting the position-indexed source loop with the
dot-separated group view, followed by the characterization theorem. -/

/-- Taking up to the first dot is taking while not_dot. -/
theorem take_findIdx_eq_takeWhile (l : List Char) :
    l.take (l.findIdx (fun d => d = '.')) = l.takeWhile not_dot := by
  induction l with
  | nil => rfl
  | cons a t ih =>
    by_cases ha : a = '.'
    · simp [List.findIdx_cons, List.takeWhile_cons, not_dot, ha]
    · simp [List.findIdx_cons, List.takeWhile_cons, not_dot, ha, ih]

/-- Dropping past the first dot is dropping while not_dot and then one more
element. -/
theorem drop_findIdx_succ_eq_dropWhile_drop (l : List Char) :
    l.drop (l.findIdx (fun d => d = '.') + 1) = (l.dropWhile not_dot).drop 1 := by
  induction l with
  | nil => rfl
  | cons a t ih =>
    by_cases ha : a = '.'
    · simp [List.findIdx_cons, List.dropWhile_cons, not_dot, ha]
    · simp [List.findIdx_cons, List.dropWhile_cons, not_dot, ha, ih]

/-- findIdx hits the length exactly when dropWhile not_dot empties the list
(no dot occurs at all). -/
theorem findIdx_eq_length_iff_dropWhile_nil (l : List Char) :
    l.findIdx (fun d => d = '.') = l.length ↔ l.dropWhile not_dot = [] := by
  induction l with
  | nil => simp
  | cons a t ih =>
    by_cases ha : a = '.'
    · simp [List.findIdx_cons, List.dropWhile_cons, not_dot, ha]
    · simp [List.findIdx_cons, List.dropWhile_cons, not_dot, ha, ih]

/-- from_chars at base 10 succeeds with the decimal value on a nonempty
all-digit string. -/
theorem from_chars_dec_of_all_digits {g : List Char} (hne : g ≠ [])
    (hdig : ∀ c ∈ g, c.isDigit = true) :
    from_chars_dec g = some (dec_value g) := by
  unfold from_chars_dec
  rw [List.takeWhile_eq_self_iff.mpr hdig]
  simp [List.isEmpty_iff, hne]

/-- dot_groups of a dotless string. -/
theorem dot_groups_no_dot {s : List Char} (h : s.dropWhile not_dot = []) :
    dot_groups s = [s.takeWhile not_dot] := by
  rw [dot_groups]
  exact dif_pos h

/-- dot_groups of a string containing a dot. -/
theorem dot_groups_dot {s : List Char} (h : s.dropWhile not_dot ≠ []) :
    dot_groups s = s.takeWhile not_dot ::
      dot_groups ((s.dropWhile not_dot).drop 1) := by
  rw [dot_groups]
  exact dif_neg h

theorem ipv4_loop_spec (s : List Char)
    (hval : ∀ c ∈ s, c.isDigit = true ∨ c = '.') :
    ∀ (fuel pos : Nat) (n : Nat) (addr : Nat), s.length - pos < fuel →
      ok_value (ipv4_loop s fuel pos (8 * (n : Int) - 8) addr) =
        (spec_run (dot_groups (s.drop pos)) n addr).map
          (fun v => (⟨v⟩ : ipv4_address)) := by
  intro fuel
  induction fuel with
  | zero => intro pos n addr h; exact absurd h (Nat.not_lt_zero _)
  | succ fuel ih =>
    intro pos n addr hfuel
    match n with
    | 0 =>
      have hc : ¬(pos < s.length ∧ (0:Int) ≤ 8 * ((0:Nat):Int) - 8) := by
        omega
      have hne : ¬(8 * ((0:Nat):Int) - 8 ≠ -8) := by
        omega
      simp only [ipv4_loop]
      rw [if_neg hc, if_neg hne]
      simp [ok_value, spec_run]
    | m + 1 =>
      have hsh : (0:Int) ≤ 8 * ((m+1 : Nat):Int) - 8 := by omega
      by_cases hpos : pos < s.length
      case neg =>
        have hr : s.drop pos = [] := List.drop_eq_nil_of_le (by omega)
        have hc : ¬(pos < s.length ∧ (0:Int) ≤ 8 * ((m+1:Nat):Int) - 8) := by
          rintro ⟨h1, -⟩
          exact hpos h1
        have hne : (8 * ((m+1:Nat):Int) - 8 ≠ -8) := by omega
        simp only [ipv4_loop]
        rw [if_neg hc, if_pos hne, hr]
        rw [dot_groups_no_dot (by simp)]
        simp [ok_value, spec_run, valid_octet]
      case pos =>
        simp only [ipv4_loop, find_char_or_end]
        rw [if_pos ⟨hpos, hsh⟩, Nat.add_sub_cancel_left, take_findIdx_eq_takeWhile]
        set r := List.drop pos s with hrdef
        have hrlen : r.length = s.length - pos := by
          rw [hrdef]; exact List.length_drop pos s
        by_cases hlen : (r.takeWhile not_dot).isEmpty = true ∨
            (r.takeWhile not_dot).length > 3
        · rw [if_pos hlen]
          have hvo : valid_octet (r.takeWhile not_dot) = false := by
            rcases hlen with h | h
            · have h0 : r.takeWhile not_dot = [] := by
                rcases hx : r.takeWhile not_dot with _ | _
                · rfl
                · rw [hx] at h; cases h
              simp [valid_octet, h0]
            · simp only [valid_octet, decide_eq_false_iff_not]
              rintro ⟨-, h2, -⟩
              omega
          rcases hdw : r.dropWhile not_dot with _ | ⟨d, rest⟩
          · rw [dot_groups_no_dot hdw]
            simp only [spec_run, hvo, ok_value, Bool.false_eq_true, if_false]
            rfl
          · rw [dot_groups_dot (by rw [hdw]; simp)]
            simp only [spec_run, hvo, ok_value, Bool.false_eq_true, if_false]
            rfl
        · push_neg at hlen
          have hne : r.takeWhile not_dot ≠ [] := by
            intro h0
            apply hlen.1
            rw [h0]
            rfl
          have hdig : ∀ c ∈ r.takeWhile not_dot, c.isDigit = true := by
            intro c hc
            have hcne : c ≠ '.' := by
              have := List.mem_takeWhile_imp hc
              simpa [not_dot] using this
            have hcr : c ∈ r := (List.takeWhile_sublist _).subset hc
            have hcs : c ∈ s := by
              rw [hrdef] at hcr
              exact (List.drop_sublist _ _).subset hcr
            rcases hval c hcs with hd | hdot
            · exact hd
            · exact absurd hdot hcne
          rw [if_neg (by
            rintro (h | h)
            · exact hlen.1 h
            · omega)]
          rw [from_chars_dec_of_all_digits hne hdig]
          dsimp only
          by_cases h255 : dec_value (r.takeWhile not_dot) > 255
          · rw [if_pos h255]
            have hvo : valid_octet (r.takeWhile not_dot) = false := by
              simp only [valid_octet, decide_eq_false_iff_not]
              rintro ⟨-, -, -, h4⟩
              omega
            rcases hdw : r.dropWhile not_dot with _ | ⟨d, rest⟩
            · rw [dot_groups_no_dot hdw]
              simp only [spec_run, hvo, Bool.false_eq_true, if_false, ok_value]
              rfl
            · rw [dot_groups_dot (by rw [hdw]; simp)]
              simp only [spec_run, hvo, Bool.false_eq_true, if_false, ok_value]
              rfl
          · rw [if_neg h255]
            have hvo : valid_octet (r.takeWhile not_dot) = true := by
              simp only [valid_octet, decide_eq_true_eq]
              refine ⟨?_, ?_, ?_, ?_⟩
              · have := List.length_pos.mpr hne
                omega
              · omega
              · exact List.all_eq_true.mpr (by
                  intro c hc
                  exact hdig c hc)
              · omega
            have htn : ((8 * ((m+1:Nat):Int) - 8)).toNat = 8 * m := by
              push_cast
              omega
            rw [htn]
            rcases hdw : r.dropWhile not_dot with _ | ⟨d, rest⟩
            · have hidx : r.findIdx (fun d => d = '.') = r.length :=
                (findIdx_eq_length_iff_dropWhile_nil r).mpr hdw
              have hgt : pos + r.findIdx (fun d => d = '.') + 1 > s.length := by
                rw [hidx]
                omega
              rw [dot_groups_no_dot hdw]
              by_cases hm : (0:Int) ≤ 8 * ((m+1:Nat):Int) - 8 - 8
              · rw [if_pos ⟨hgt, hm⟩]
                rcases m with _ | k
                · exfalso
                  omega
                · simp [spec_run, hvo, ok_value]
              · rw [if_neg (fun hand => hm hand.2)]
                have hm0 : m = 0 := by omega
                subst hm0
                have hsh2 : (8 * ((0+1:Nat):Int) - 8 - 8) = 8 * ((0:Nat):Int) - 8 := by
                  norm_num
                rw [hsh2, ih _ 0 _ (by omega)]
                simp [spec_run, hvo, ok_value]
            · have hne2 : r.dropWhile not_dot ≠ [] := by
                rw [hdw]
                simp
              have hidx_ne : r.findIdx (fun d => d = '.') ≠ r.length :=
                fun h0 => hne2 ((findIdx_eq_length_iff_dropWhile_nil r).mp h0)
              have hidx_le : r.findIdx (fun d => d = '.') ≤ r.length :=
                List.findIdx_le_length _
              have hngt : ¬(pos + r.findIdx (fun d => d = '.') + 1 > s.length ∧
                  (0:Int) ≤ 8 * ((m+1:Nat):Int) - 8 - 8) := by
                rintro ⟨h1, -⟩
                omega
              rw [if_neg hngt]
              have hdrop : s.drop (pos + r.findIdx (fun d => d = '.') + 1) = rest := by
                have h1 := drop_findIdx_succ_eq_dropWhile_drop r
                rw [hdw] at h1
                rw [Nat.add_assoc,
                  ← List.drop_drop (r.findIdx (fun d => d = '.') + 1) pos s,
                  ← hrdef, h1]
                rfl
              have hshift : (8 * ((m+1:Nat):Int) - 8 - 8) = 8 * ((m:Nat):Int) - 8 := by
                push_cast
                ring
              rw [hshift, ih _ m _ (by omega), hdrop]
              rw [dot_groups_dot hne2, hdw]
              simp only [List.drop_succ_cons, List.drop_zero]
              simp only [spec_run, hvo, if_true]

/-- C4 counterexample: ipv4_address::from_string accepts "1.2.3.4.5" --- an
input with five dot-separated groups, which the claim requires to fail as a
wrong group count --- and returns the truncated address 1.2.3.4
(0x01020304), not a typed parse error: the loop stops consuming after the
fourth octet (shift goes negative) and the final check only rejects too few
octets, so the trailing ".5" is silently ignored. -/
theorem ipv4_from_string_accepts_five_groups :
    ipv4_from_string ("1.2.3.4.5").toList = Except.ok ⟨0x01020304⟩ := by
  decide

/-- C4 amended: IPv4 parsing accepts exactly those inputs over the
digits-and-dots alphabet whose first four dot-separated groups are decimal
octets of 1-3 digits valued 0-255 --- including inputs with MORE than four
groups, which parse to the (truncated) address of the first four --- and
every other input (invalid character, fewer than four groups, empty or
oversized or out-of-range group among the first four) returns a typed parse
error, never a default address and never a panic. Stated as a full
characterization: the ok-result of from_string coincides with the spec-side
parser parse_v4_spec on every input. -/
theorem ipv4_from_string_matches_spec (s : List Char) :
    ok_value (ipv4_from_string s) =
      (parse_v4_spec s).map (fun v => (⟨v⟩ : ipv4_address)) := by
  unfold ipv4_from_string parse_v4_spec
  by_cases hall : s.all (fun c => c.isDigit ∨ c = '.') = true
  · rw [if_pos hall, if_pos hall]
    have hval : ∀ c ∈ s, c.isDigit = true ∨ c = '.' := by
      intro c hc
      have := List.all_eq_true.mp hall c hc
      simpa using this
    have hmain := ipv4_loop_spec s hval (s.length + 1) 0 (0+1+1+1+1) 0 (by omega)
    rw [List.drop_zero] at hmain
    rw [show ((8 * (((0+1+1+1+1):Nat):Int) - 8)) = 24 by norm_num] at hmain
    rw [hmain]
    rcases hg : dot_groups s with _ | ⟨g1, _ | ⟨g2, _ | ⟨g3, _ | ⟨g4, gs⟩⟩⟩⟩
    · simp [spec_run]
    · by_cases h1 : valid_octet g1 = true <;> simp [spec_run, h1]
    · by_cases h1 : valid_octet g1 = true <;> by_cases h2 : valid_octet g2 = true <;>
        simp [spec_run, h1, h2]
    · by_cases h1 : valid_octet g1 = true <;> by_cases h2 : valid_octet g2 = true <;>
        by_cases h3 : valid_octet g3 = true <;> simp [spec_run, h1, h2, h3]
    · by_cases h1 : valid_octet g1 = true <;> by_cases h2 : valid_octet g2 = true <;>
        by_cases h3 : valid_octet g3 = true <;> by_cases h4 : valid_octet g4 = true <;>
        simp [spec_run, h1, h2, h3, h4, Nat.zero_or, Nat.shiftLeft_zero]
  · rw [if_neg hall, if_neg hall]
    rfl

end Dualstack
